import Mathlib

/-!
Shallow embedding of the replica-coordination core of `acebase-ring`
(`src/server.ts`): startup configuration checks, the connection
registry / hash-ring state machine (`connectTo`, `buildRing`,
`checkRemoved`, `replicaFor`), the populator's sample buffer, and the
consistency sampler's read-back comparison.
-/

namespace AcebaseRing

/-! ## Startup configuration checks (server.ts lines 12–48)

The bootstrap reads `process.env.DB_ADMIN_PASSWORD` (a string, or
`undefined` when the variable is unset), `argv.name` (the `--name`
argument, or `undefined` when absent), and the keys of `config.server`
from `servers.toml`.  We model the two "possibly absent" inputs as
`Option String` (`none` = JavaScript `undefined`). -/

structure StartupConfig where
  /-- `Object.keys(config.server)`: the node identifiers in the static mapping. -/
  serverKeys : List String
  /-- `process.env.DB_ADMIN_PASSWORD`; `none` when the variable is unset. -/
  adminPassword : Option String
  /-- `argv.name`; `none` when `--name` was not passed. -/
  argName : Option String
  deriving DecidableEq, Repr

/-- `const serverConfig = { logLevel: 'warn', ...config.server[serverName] }`
(server.ts line 38).  Spreading `undefined` into an object literal is legal
JavaScript and yields just the literal's own fields, so `serverConfig` is
always a defined object: this function never returns `none`, whether or not
`name` is a key of `config.server`. -/
def mkServerConfig (c : StartupConfig) (name : String) :
    Option (String × Bool) :=
  some ("warn", c.serverKeys.contains name)

/-- The startup check sequence of server.ts lines 18–48, in source order:
line 20 `if (adminPassword === 'undefined') process.exit(1)` — a comparison
against the *string* `'undefined'`, not the value `undefined`;
line 33 `if (serverName === undefined) process.exit(1)`;
line 45 `if (serverConfig === undefined) process.exit(1)`.
Returns `some code` when the process exits with `code` before the
coordinator logic, `none` when startup proceeds. -/
def startupExit (c : StartupConfig) : Option Nat :=
  if c.adminPassword = some "undefined" then some 1
  else
    match c.argName with
    | none => some 1
    | some name =>
        if mkServerConfig c name = none then some 1 else none

/-! ## Populator sample buffer (server.ts lines 144–167)

`SAMPLE_COUNT = 100`; on a sampled write the populator runs
`sampledValues.push(sample); sampledValues = [...sampledValues].slice(-SAMPLE_COUNT)`.
`Array.prototype.slice(-n)` keeps the final `min(n, length)` elements in
order, i.e. drops `length - n` from the front (`Nat` subtraction). -/

def SAMPLE_RATE_NUM : Nat := 1
def SAMPLE_COUNT : Nat := 100

/-- One retained sample: `{ path: objPath, inner: msg }` (server.ts line 166).
Only the `msg` payload of `inner` is compared by the sampler, so the
timestamp is kept abstract as a `Nat`. -/
structure Sample where
  path : String
  msg : String
  ts : Nat
  deriving DecidableEq, Repr

/-- `sampledValues.push(s); sampledValues = [...sampledValues].slice(-SAMPLE_COUNT)`
(server.ts lines 166–167). -/
def pushSample (buf : List Sample) (s : Sample) : List Sample :=
  let arr := buf ++ [s]
  arr.drop (arr.length - SAMPLE_COUNT)

/-! ## Primary store and sampler (server.ts lines 159–167 and 205–217)

The store records the `ref.set({msg, ts})` writes the populator performs:
an association list from full path to the written `msg` payload, newest
first.  Reading path `p` yields the object stored under `p`; its `.msg`
property is present exactly when a record was `set` at `p` itself — a
record written at a pushed child `p/<id>` creates a child object under
`p`, not a `msg` field of `p`. -/

def Store := List (String × String)

def emptyStore : Store := []

/-- `ref.set({ msg, ts })` at full path `p` (server.ts line 163). -/
def writeMsg (st : Store) (p : String) (m : String) : Store :=
  (p, m) :: st

/-- The `msg` field of the value read back at path `p`
(`(await client.ref(path).proxy().value).msg`, server.ts lines 208–210):
`some m` when a record with payload `m` was last set at `p` itself,
`none` (JavaScript `undefined`) otherwise. -/
def msgFieldAt (st : Store) (p : String) : Option String :=
  (st.find? (fun q => q.1 == p)).map Prod.snd

/-- One iteration of the populator loop body for test key `obj`
(server.ts lines 159–167), restricted to the primary write and the sample
retention: `push()` generates child segment `pushId` under
`objPath = "/test/" ++ obj`, `ref.set(msg)` writes the record at the pushed
child path, and when the `Math.random() < SAMPLE_RATE` draw succeeds
(`sampled = true`) the pair `{ path: objPath, inner: msg }` — the *parent*
path, not `ref.path` — is pushed into the bounded buffer. -/
def populateOne (st : Store) (buf : List Sample) (obj pushId : String)
    (ts : Nat) (sampled : Bool) : Store × List Sample :=
  let m := "testing for ref " ++ obj
  let objPath := "/test/" ++ obj
  let refPath := objPath ++ "/" ++ pushId
  let st' := writeMsg st refPath m
  let buf' := if sampled then pushSample buf ⟨objPath, m, ts⟩ else buf
  (st', buf')

/-- The drift events `testRing` logs on one tick (server.ts lines 205–217):
for each retained sample it re-reads `sample.path` from the primary store
and logs `{ path, imsg, vmsg }` when `imsg != vmsg` (JavaScript `!=` between
a string and `undefined` is true).  Each event carries the expected payload
and the observed one (`none` = `undefined`). -/
def driftEvents (st : Store) (buf : List Sample) :
    List (String × String × Option String) :=
  (buf.map (fun s => (s.path, s.msg, msgFieldAt st s.path))).filter
    (fun t => !(some t.2.1 == t.2.2))

/-! ## Connection registry / hash ring state (server.ts lines 76–142)

`const ring = new HashRing(); const connections: Map<string, AceBaseClient>
= new Map(); const removed: Set<string> = new Set();`

JavaScript executes run-to-completion: each synchronous block (the body of
`connectTo` up to its `return`, one `.then`/`.catch` callback, one event
listener invocation, one timer tick body) runs atomically.  We model each
such block as one step of a transition system.  Connection objects
(`new AceBaseClient(...)`) are named by allocation order (`nextId`); each
carries the node key it was created for.  `ready()` resolves (`readyOk`)
or rejects (`readyFail`) exactly once per client, and `disconnect` fires
only on a client whose `ready` resolved. -/

structure CoordState where
  /-- Node identifiers currently registered with the hash ring. -/
  ring : List String
  /-- The `connections` map: node key ↦ id of the client stored for it. -/
  connections : List (String × Nat)
  /-- The `removed` working set. -/
  removed : List String
  /-- Clients constructed by `connectTo` (id, node key), oldest first. -/
  created : List (Nat × String)
  /-- Clients whose `ready()` resolved and whose transport has not dropped:
  the live connection objects, with the node key each one is connected to. -/
  live : List (Nat × String)
  /-- Clients whose `ready()` promise has settled (resolved or rejected). -/
  resolved : List Nat
  /-- Allocation counter for connection objects. -/
  nextId : Nat
  deriving DecidableEq, Repr

def initState : CoordState :=
  { ring := [], connections := [], removed := [], created := [],
    live := [], resolved := [], nextId := 0 }

/-- `connections.get(key)` (after `connections.has(key)`). -/
def lookupConn (cs : List (String × Nat)) (k : String) : Option Nat :=
  (cs.find? (fun p => p.1 == k)).map Prod.snd

/-- `connections.set(key, client)`: replaces any previous binding of `key`. -/
def setConn (cs : List (String × Nat)) (k : String) (cid : Nat) :
    List (String × Nat) :=
  (k, cid) :: cs.filter (fun p => p.1 != k)

/-- `ring.addNode(key)` / `removed.add(key)`: set-semantics insertion. -/
def insertNode (k : String) (l : List String) : List String :=
  if k ∈ l then l else k :: l

/-- The synchronous body of `connectTo` (server.ts lines 80–105): if
`connections.has(key)`, return the stored client unchanged; otherwise
construct a fresh `AceBaseClient`, register its `disconnect` listener and
`ready()` handlers (modelled as the `readyOk` / `readyFail` / `disconnect`
steps below), and return the new client.  The function returns the client
in both branches; it has no synchronous failure path. -/
def connectToRun (s : CoordState) (k : String) : Nat × CoordState :=
  match lookupConn s.connections k with
  | some cid => (cid, s)
  | none =>
      (s.nextId,
        { s with created := s.created ++ [(s.nextId, k)],
                 nextId := s.nextId + 1 })

/-- The `client.ready().then(...)` callback (server.ts lines 96–99):
`ring.addNode(key); connections.set(key, client)`, and the client is now a
live connection object. -/
def readyOkRun (s : CoordState) (cid : Nat) (k : String) : CoordState :=
  { s with ring := insertNode k s.ring,
           connections := setConn s.connections k cid,
           live := s.live ++ [(cid, k)],
           resolved := s.resolved ++ [cid] }

/-- The `.catch(...)` callback (server.ts lines 100–102): logs only. -/
def readyFailRun (s : CoordState) (cid : Nat) : CoordState :=
  { s with resolved := s.resolved ++ [cid] }

/-- The `disconnect` listener (server.ts lines 89–94):
`ring.removeNode(key); connections.delete(key); removed.add(key)`, and the
client object is no longer live. -/
def disconnectRun (s : CoordState) (cid : Nat) (k : String) : CoordState :=
  { s with ring := s.ring.filter (fun j => j != k),
           connections := s.connections.filter (fun p => p.1 != k),
           removed := insertNode k s.removed,
           live := s.live.filter (fun p => p != (cid, k)) }

/-- The keys a JavaScript `for (let key in removed)` loop enumerates when
`removed` is a `Set<string>` (server.ts line 117): `for...in` iterates the
object's enumerable own properties, and a `Set` stores its elements in
internal slots, not as properties, so the loop enumerates nothing —
regardless of the set's contents. -/
def jsForInSetKeys (_elems : List String) : List String := []

/-- The node keys for which one `checkRemoved` tick calls `connectTo`
(server.ts lines 116–126). -/
def checkRemovedAttempts (s : CoordState) : List String :=
  jsForInSetKeys s.removed

/-- The synchronous body of one `checkRemoved` tick (server.ts lines
116–126): run `connectTo(key)` for each enumerated key.  (The attached
`.then`/`.catch` callbacks would be later steps, but no key is ever
enumerated.) -/
def checkRemovedRun (s : CoordState) : CoordState :=
  (checkRemovedAttempts s).foldl (fun st k => (connectToRun st k).2) s

/-- `replicaFor(root)` (server.ts lines 131–142), parametric in the ketama
`ring.getNode` capability `g` (a pure function of the registered membership
and the key): when `g` returns no owner, log "all peer nodes marked down"
and return `undefined`; otherwise return `connectTo(upstream)`. -/
def replicaForRun (g : List String → String → Option String)
    (s : CoordState) (root : String) : Option Nat × CoordState :=
  match g s.ring root with
  | none => (none, s)
  | some upstream =>
      let r := connectToRun s upstream
      (some r.1, r.2)

/-- The arguments `buildRing` passes to `connectTo` (server.ts lines
107–114): `for (let key of serverNames) { if (key == serverName) continue;
connectTo(serverName); }` — the loop skips the local name and then calls
`connectTo` with `serverName`, the local node's own identifier, on every
remaining iteration. -/
def buildRingCalls (serverNames : List String) (serverName : String) :
    List String :=
  (serverNames.filter (fun k => k != serverName)).map (fun _ => serverName)

/-! ### Interleaving semantics -/

/-- One atomic synchronous block, as scheduled by the event loop. -/
inductive Step : CoordState → CoordState → Prop where
  | connectTo (s : CoordState) (k : String) :
      Step s (connectToRun s k).2
  | readyOk (s : CoordState) (cid : Nat) (k : String)
      (hc : (cid, k) ∈ s.created) (hr : cid ∉ s.resolved) :
      Step s (readyOkRun s cid k)
  | readyFail (s : CoordState) (cid : Nat) (k : String)
      (hc : (cid, k) ∈ s.created) (hr : cid ∉ s.resolved) :
      Step s (readyFailRun s cid)
  | disconnect (s : CoordState) (cid : Nat) (k : String)
      (hl : (cid, k) ∈ s.live) :
      Step s (disconnectRun s cid k)
  | checkRemoved (s : CoordState) :
      Step s (checkRemovedRun s)
  | replicaFor (s : CoordState)
      (g : List String → String → Option String) (root : String) :
      Step s (replicaForRun g s root).2

/-- States reachable from the module-initialisation state. -/
inductive Reachable : CoordState → Prop where
  | init : Reachable initState
  | step {s t : CoordState} : Reachable s → Step s t → Reachable t

/-- The invariant of spec §3: ring membership is a subset of the keys that
hold an established connection in the `connections` map. -/
def RingSubsetConn (s : CoordState) : Prop :=
  ∀ k ∈ s.ring, k ∈ s.connections.map Prod.fst

/-! ## Helper lemmas -/

theorem connectToRun_ring (s : CoordState) (k : String) :
    ((connectToRun s k).2).ring = s.ring := by
  cases h : lookupConn s.connections k <;> simp [connectToRun, h]

theorem connectToRun_connections (s : CoordState) (k : String) :
    ((connectToRun s k).2).connections = s.connections := by
  cases h : lookupConn s.connections k <;> simp [connectToRun, h]

theorem mem_insertNode {k j : String} {l : List String} :
    j ∈ insertNode k l ↔ j = k ∨ j ∈ l := by
  unfold insertNode
  split <;> rename_i h
  · constructor
    · exact Or.inr
    · rintro (rfl | hj) <;> assumption
  · simp [List.mem_cons]

theorem mem_setConn_keys {cs : List (String × Nat)} {k j : String} {cid : Nat}
    (h : j ∈ cs.map Prod.fst) : j ∈ (setConn cs k cid).map Prod.fst := by
  rcases List.mem_map.1 h with ⟨p, hp, rfl⟩
  by_cases hk : p.1 = k
  · simp [setConn, hk]
  · exact List.mem_map.2
      ⟨p, by simp [setConn, List.mem_filter, hp, hk], rfl⟩

/-- Every step of the event loop preserves the ring ⊆ connection-keys
invariant. -/
theorem stepPreservesRingSubset {s t : CoordState}
    (hs : RingSubsetConn s) (hst : Step s t) : RingSubsetConn t := by
  cases hst with
  | connectTo k =>
      intro j hj
      rw [connectToRun_ring] at hj
      rw [connectToRun_connections]
      exact hs j hj
  | readyOk cid k hc hr =>
      intro j hj
      have hj' : j = k ∨ j ∈ s.ring := mem_insertNode.1 hj
      rcases hj' with rfl | hj'
      · simp [readyOkRun, setConn]
      · exact mem_setConn_keys (hs j hj')
  | readyFail cid k hc hr =>
      intro j hj
      exact hs j hj
  | disconnect cid k hl =>
      intro j hj
      have hj' := List.mem_filter.1 hj
      rcases List.mem_map.1 (hs j hj'.1) with ⟨p, hp, rfl⟩
      exact List.mem_map.2
        ⟨p, List.mem_filter.2 ⟨hp, by simpa using hj'.2⟩, rfl⟩
  | checkRemoved =>
      exact hs
  | replicaFor g root =>
      intro j hj
      cases hg : g s.ring root <;>
        simp only [replicaForRun, hg] at hj ⊢
      · exact hs j hj
      · rw [connectToRun_ring] at hj
        rw [connectToRun_connections]
        exact hs j hj

/-- A state with one peer connected: `connectTo("b")` ran, then its
`ready()` resolved. -/
def liveOneState : CoordState :=
  readyOkRun (connectToRun initState "b").2 0 "b"

/-- A `getNode` instance for witnesses: owner is the first registered node. -/
def headOwner (membership : List String) (_root : String) : Option String :=
  membership.head?

/-! ## Claims -/

/-- Claim C1 (code_bug evidence): the reconciler tick `checkRemoved`
iterates `for (let key in removed)` over a `Set`, which enumerates no keys,
so the tick attempts `connect` for no node at all and leaves the entire
state unchanged — in particular for a state whose working set holds `"b"`,
contrary to the claim that every node in the working set gets a connect
attempt. -/
theorem checkRemoved_attempts_nothing :
    (∀ s : CoordState, checkRemovedAttempts s = [] ∧ checkRemovedRun s = s) ∧
    checkRemovedRun { initState with removed := ["b"] } =
      { initState with removed := ["b"] } :=
  ⟨fun _ => ⟨rfl, rfl⟩, rfl⟩

/-- Claim C2 (code_bug evidence): a startup configuration with the admin
credential variable unset (`adminPassword = none`) and a local identifier
(`"zz"`) that is not a key of the static mapping proceeds past every
startup check (`startupExit = none`) instead of exiting non-zero, because
line 20 compares the password against the string `'undefined'` and the
`serverConfig` of line 38 is an object literal that can never be
`undefined`.  Only the unset-identifier check (line 33) works: with
`argName = none` the process does exit with code 1. -/
theorem startup_checks_incomplete :
    startupExit { serverKeys := ["a"], adminPassword := none,
                  argName := some "zz" } = none ∧
    startupExit { serverKeys := ["a", "b"], adminPassword := some "pw",
                  argName := none } = some 1 :=
  ⟨rfl, rfl⟩

/-- Claim C3: `replicaFor` returns `undefined` exactly when the hash ring
returns no owner for the key (the empty-membership case, logged as "all
peer nodes marked down"); otherwise it returns exactly the handle
`connectTo(upstream)` produces, with `connectTo`'s state effect.
`connectTo` itself is total — it has no synchronous failure path — so no
other source of `Unavailable` exists. -/
theorem replicaFor_unavailable_iff
    (g : List String → String → Option String) (s : CoordState)
    (root : String) :
    ((replicaForRun g s root).1 = none ↔ g s.ring root = none) ∧
    (∀ owner, g s.ring root = some owner →
      replicaForRun g s root =
        (some (connectToRun s owner).1, (connectToRun s owner).2)) := by
  cases hg : g s.ring root <;> simp [replicaForRun, hg]

/-- Witness for C3 at a concrete membership: with one registered node
`"b"`, the router returns the connection `connectTo("b")` yields. -/
theorem replicaFor_unavailable_iff_witness :
    replicaForRun headOwner liveOneState "/test/a" =
      (some (connectToRun liveOneState "b").1,
        (connectToRun liveOneState "b").2) :=
  (replicaFor_unavailable_iff headOwner liveOneState "/test/a").2 "b" rfl

/-- Claim C6: `connectTo` is idempotent — when the `connections` map
already holds a client for the key, the call returns that stored handle
and the whole coordinator state (registry, ring, allocation counter) is
unchanged: no new connection object is created. -/
theorem connectTo_idempotent (s : CoordState) (k : String) (cid : Nat)
    (h : lookupConn s.connections k = some cid) :
    connectToRun s k = (cid, s) := by
  simp [connectToRun, h]

/-- Witness for C6: in the one-peer-connected state, `connectTo("b")`
returns stored client `0` and changes nothing. -/
theorem connectTo_idempotent_witness :
    connectToRun liveOneState "b" = (0, liveOneState) :=
  connectTo_idempotent liveOneState "b" 0 rfl

/-- Claim C8: `replicaFor` leaves the ring membership unchanged, so two
consecutive calls with no membership change in between resolve the same
owner (`ring.getNode` applied to the same membership and key): the router
introduces no nondeterminism beyond the hash-ring capability. -/
theorem replicaFor_deterministic
    (g : List String → String → Option String) (s : CoordState)
    (root : String) (_h : s.ring ≠ []) :
    ((replicaForRun g s root).2).ring = s.ring ∧
    g ((replicaForRun g s root).2).ring root = g s.ring root := by
  have hr : ((replicaForRun g s root).2).ring = s.ring := by
    cases hg : g s.ring root <;>
      simp [replicaForRun, hg, connectToRun_ring]
  exact ⟨hr, by rw [hr]⟩

/-- Witness for C8 at a concrete non-empty membership. -/
theorem replicaFor_deterministic_witness :
    ((replicaForRun headOwner liveOneState "/test/a").2).ring =
        liveOneState.ring ∧
    headOwner ((replicaForRun headOwner liveOneState "/test/a").2).ring
        "/test/a" = headOwner liveOneState.ring "/test/a" :=
  replicaFor_deterministic headOwner liveOneState "/test/a" (by decide)

/-- Claim C10: whenever the configuration holds at least one peer besides
the local node, `buildRing` makes at least one `connectTo` call, and every
one of its calls passes `serverName` — the local node's own identifier —
never the peer's key being iterated. -/
theorem buildRing_connects_only_self (names : List String) (sname : String)
    (h : ∃ k ∈ names, k ≠ sname) :
    buildRingCalls names sname ≠ [] ∧
    ∀ k ∈ buildRingCalls names sname, k = sname := by
  obtain ⟨k, hk, hne⟩ := h
  constructor
  · intro hnil
    rw [buildRingCalls, List.map_eq_nil_iff] at hnil
    have hmem : k ∈ names.filter (fun j => j != sname) :=
      List.mem_filter.2 ⟨hk, by simpa using hne⟩
    rw [hnil] at hmem
    exact List.not_mem_nil k hmem
  · intro j hj
    rcases List.mem_map.1 hj with ⟨_, _, rfl⟩
    rfl

/-- Witness for C10: configuration `["a", "b"]` with local node `"a"`. -/
theorem buildRing_connects_only_self_witness :
    buildRingCalls ["a", "b"] "a" ≠ [] ∧
    ∀ k ∈ buildRingCalls ["a", "b"] "a", k = "a" :=
  buildRing_connects_only_self ["a", "b"] "a" ⟨"b", by decide, by decide⟩

/-- Claim C5: in every reachable coordinator state the ring membership is
a subset of the keys holding an established connection in the
`connections` map, and every event-loop step — connect, ready success or
failure, disconnect listener, reconciler tick, router lookup — preserves
the invariant. -/
theorem ring_subset_connections :
    (∀ s t : CoordState, RingSubsetConn s → Step s t → RingSubsetConn t) ∧
    ∀ s : CoordState, Reachable s → RingSubsetConn s := by
  refine ⟨fun s t hs hst => stepPreservesRingSubset hs hst, ?_⟩
  intro s hs
  induction hs with
  | init => intro j hj; simp [initState] at hj
  | step _ hst ih => exact stepPreservesRingSubset ih hst

/-- Witness for C5: the invariant holds in the concrete reachable state
where peer `"b"` has connected. -/
theorem ring_subset_connections_witness : RingSubsetConn liveOneState :=
  ring_subset_connections.2 liveOneState
    (Reachable.step
      (Reachable.step Reachable.init (Step.connectTo initState "b"))
      (Step.readyOk (connectToRun initState "b").2 0 "b"
        (by decide) (by decide)))

/-- The interleaving of claim C9: `connectTo("b")` runs twice before the
first client's `ready()` resolves, then both `ready()` promises resolve. -/
def c9state : CoordState :=
  readyOkRun
    (readyOkRun ((connectToRun ((connectToRun initState "b").2) "b").2)
      0 "b")
    1 "b"

/-- Claim C9 (code_bug evidence): the interleaving `connectTo("b")`;
`connectTo("b")`; `ready(client 0)`; `ready(client 1)` is reachable — the
in-flight first attempt does not block the second, because no `Connecting`
state exists and `connections.has` is only set on ready — and it leaves
TWO live connection objects for node `"b"`.  The `connections` map
registers only the later client `1`, while client `0` remains live,
unregistered and never closed. -/
theorem double_connect_two_live :
    Reachable c9state ∧
    (c9state.live.filter (fun p => p.2 == "b")).length = 2 ∧
    lookupConn c9state.connections "b" = some 1 ∧
    (0, "b") ∈ c9state.live := by
  refine ⟨?_, by decide, by decide, by decide⟩
  exact Reachable.step
    (Reachable.step
      (Reachable.step
        (Reachable.step Reachable.init (Step.connectTo initState "b"))
        (Step.connectTo (connectToRun initState "b").2 "b"))
      (Step.readyOk ((connectToRun ((connectToRun initState "b").2) "b").2)
        0 "b" (by decide) (by decide)))
    (Step.readyOk
      (readyOkRun ((connectToRun ((connectToRun initState "b").2) "b").2)
        0 "b")
      1 "b" (by decide) (by decide))

/-- Running the buffer update over any sequence of retained samples keeps
exactly the suffix that fits in `SAMPLE_COUNT`, provided the starting
buffer is within capacity. -/
theorem foldl_pushSample (samples : List Sample) :
    ∀ buf : List Sample, buf.length ≤ SAMPLE_COUNT →
    List.foldl pushSample buf samples =
      (buf ++ samples).drop (buf.length + samples.length - SAMPLE_COUNT) := by
  induction samples with
  | nil =>
      intro buf hb
      simp only [List.foldl_nil, List.append_nil, List.length_nil,
        Nat.add_zero]
      rw [Nat.sub_eq_zero_of_le hb, List.drop_zero]
  | cons s rest ih =>
      intro buf hb
      rw [List.foldl_cons]
      have hlen : (pushSample buf s).length =
          buf.length + 1 - (buf.length + 1 - SAMPLE_COUNT) := by
        simp [pushSample]
      have hle : (pushSample buf s).length ≤ SAMPLE_COUNT := by omega
      rw [ih (pushSample buf s) hle]
      have harr : pushSample buf s =
          ((buf ++ [s]).drop (buf.length + 1 - SAMPLE_COUNT)) := by
        simp [pushSample]
      have hsplit :
          ((buf ++ [s]).drop (buf.length + 1 - SAMPLE_COUNT)) ++ rest =
            ((buf ++ [s]) ++ rest).drop (buf.length + 1 - SAMPLE_COUNT) :=
        (List.drop_append_of_le_length (by simp)).symm
      rw [harr, hsplit, List.drop_drop, List.append_assoc,
        List.singleton_append]
      congr 1
      simp only [List.length_drop, List.length_append, List.length_cons,
        List.length_nil, SAMPLE_COUNT] at hb ⊢
      omega

/-- Claim C7: after any sequence of sampled writes starting from the empty
buffer, the retained buffer holds at most `SAMPLE_COUNT = 100` records,
and it is exactly the most recently sampled records in sampling order —
the front (oldest) of the sequence is what gets dropped. -/
theorem sample_buffer_bounded (samples : List Sample) :
    (List.foldl pushSample [] samples).length ≤ SAMPLE_COUNT ∧
    List.foldl pushSample [] samples =
      samples.drop (samples.length - SAMPLE_COUNT) := by
  have h := foldl_pushSample samples [] (by simp)
  simp only [List.nil_append, List.length_nil, Nat.zero_add] at h
  refine ⟨?_, h⟩
  rw [h, List.length_drop]
  omega

/-- Claim C4 (code_bug evidence): one populator iteration for test key
`"g"` (push id `"p0"`, sampled) writes the record at the pushed child path
`/test/g/p0` but retains the sample under the parent path `/test/g`.  With
no external mutation at all, re-reading the retained path yields no `msg`
field (`none`, i.e. JavaScript `undefined`), not the written payload, so
the sampler logs a drift event — expected `"testing for ref g"`, observed
`undefined` — contradicting the claim that an unmutated store re-reads
clean. -/
theorem sampler_mismatch_without_mutation :
    (populateOne emptyStore [] "g" "p0" 7 true).2 =
      [{ path := "/test/g", msg := "testing for ref g", ts := 7 }] ∧
    msgFieldAt (populateOne emptyStore [] "g" "p0" 7 true).1 "/test/g/p0" =
      some "testing for ref g" ∧
    msgFieldAt (populateOne emptyStore [] "g" "p0" 7 true).1 "/test/g" =
      none ∧
    driftEvents (populateOne emptyStore [] "g" "p0" 7 true).1
        (populateOne emptyStore [] "g" "p0" 7 true).2 =
      [("/test/g", "testing for ref g", none)] :=
  ⟨rfl, rfl, rfl, rfl⟩

end AcebaseRing
